import Mathlib

/-!
Verification of the `gif_probe` frame-scanning and transparency-inference
algorithm (`src/main.rs`, function `main`).

The program opens a GIF stream, validates the canvas area against an
optional pixel cap, seeds the maximum palette size from the global palette,
fully decodes the first frame (checking whether a declared transparent
index actually occurs in the pixel buffer), then header-scans all later
frames (setting the alpha flag on a `Background` disposal of nonzero area),
accumulating frame count, duration and maximum palette size, and stopping
once the accumulated duration reaches an optional ceiling.

The embedding below models the decoder's successful output as a
`GifStream` (canvas size, optional global palette, list of frames); the
LZW decoder itself is an external collaborator and decode errors abort the
whole run, so only successfully-decoded streams are modelled.  The two
fatal conditions inside the probed code itself — the "Image too large!"
panic and the `u16::try_from` palette-size panic — are modelled as
`Except` errors.  `u64` arithmetic is modelled on `Nat` with an explicit
`% 2^64`.
-/

namespace GifProbeModel

/-- `2^64`, the modulus of the Rust `u64` arithmetic used by the probe. -/
def U64_MOD : Nat := 2 ^ 64

/-- Disposal methods of the `gif` crate (`gif::DisposalMethod`). -/
inductive DisposalMethod
  | Any
  | Keep
  | Background
  | Previous
deriving DecidableEq, Repr

/-- A decoded frame as exposed by the `gif` crate to `main`
(`gif::Frame`): the fields the probe reads.  `delay` is the `u16` delay
value, `buffer` the indexed pixel buffer (one palette index per pixel,
present only for the fully decoded first frame; header-only frames carry
an empty buffer, which the probe never reads), `palette` the raw bytes of
the optional local palette, `transparent` the optional transparent-color
index. -/
structure Frame where
  delay : Nat
  dispose : DisposalMethod
  transparent : Option Nat
  palette : Option (List Nat)
  buffer : List Nat
  width : Nat
  height : Nat
deriving DecidableEq, Repr

/-- A successfully opened GIF stream as seen through the decoder:
canvas size (`decoder.width()`, `decoder.height()`), optional global
palette bytes (`decoder.global_palette()`), and the sequence of frames the
decoder would yield. -/
structure GifStream where
  width : Nat
  height : Nat
  global_palette : Option (List Nat)
  frames : List Frame
deriving DecidableEq, Repr

/-- The command-line arguments of `gif_probe` that the core reads
(`Arguments` in `main.rs`).  `max_memory` is forwarded verbatim to the
decoder and never read by the scanning core. -/
structure Arguments where
  max_duration : Option Nat
  max_pixels : Option Nat
  max_memory : Option Nat
deriving DecidableEq, Repr

/-- The accumulator record `GifProbe` of `main.rs`, field for field. -/
structure GifProbe where
  alpha : Bool
  max_colors : Nat
  duration : Nat
  frames : Nat
  width : Nat
  height : Nat
deriving DecidableEq, Repr

/-- The fatal conditions raised by the probed code itself: the
`panic!("Image too large!")` gate and the `u16::try_from(p.len() / 3)`
palette-size conversion panic. -/
inductive ProbeError
  | imageTooLarge
  | paletteOverflow
deriving DecidableEq, Repr

/-- Rule A (`main.rs` line 173):
`matches!(frame.transparent, Some(tr) if frame.buffer.contains(&tr))`. -/
def rule_a (f : Frame) : Bool :=
  match f.transparent with
  | some tr => f.buffer.contains tr
  | none => false

/-- Rule B (`main.rs` line 186):
`frame.dispose == DisposalMethod::Background && frame.width > 0 && frame.height > 0`. -/
def rule_b (f : Frame) : Bool :=
  f.dispose == DisposalMethod.Background && decide (0 < f.width) && decide (0 < f.height)

/-- `u16::try_from(p.len() / 3)`: the number of palette entries (RGB
triplets), or `none` when it does not fit a `u16` (which makes the probe
panic). -/
def paletteColors (p : List Nat) : Option Nat :=
  if p.length / 3 < 2 ^ 16 then some (p.length / 3) else none

/-- `probe.max_colors = probe.max_colors.max(u16::try_from(p.len() / 3)?)`
applied to an optional local palette (`main.rs` lines 177-180 and
190-193). -/
def updatePalette (probe : GifProbe) : Option (List Nat) → Except ProbeError GifProbe
  | none => .ok probe
  | some p =>
    match paletteColors p with
    | some c => .ok { probe with max_colors := Nat.max probe.max_colors c }
    | none => .error .paletteOverflow

/-- The per-frame bookkeeping shared by the first-frame block
(`main.rs` lines 172-181, with `rule = rule_a`) and the header-scan loop
body (lines 185-193, with `rule = rule_b`): OR the rule into `alpha`,
increment `frames`, add the frame's delay to `duration` (both in `u64`),
then fold in the local palette. -/
def stepFrame (rule : Frame → Bool) (probe : GifProbe) (f : Frame) : Except ProbeError GifProbe :=
  updatePalette
    { probe with
      alpha := probe.alpha || rule f
      frames := (probe.frames + 1) % U64_MOD
      duration := (probe.duration + f.delay) % U64_MOD }
    f.palette

/-- The `while let Some(frame) = decoder.next_frame_info()` loop
(`main.rs` lines 185-198): header-scan the remaining frames, breaking once
`probe.duration >= max_duration`.  Returns the final accumulator together
with the frames left unvisited. -/
def scanLoop (maxD : Nat) (probe : GifProbe) : List Frame → Except ProbeError (GifProbe × List Frame)
  | [] => .ok (probe, [])
  | f :: rest =>
    match stepFrame rule_b probe f with
    | .error e => .error e
    | .ok probe => if maxD ≤ probe.duration then .ok (probe, rest) else scanLoop maxD probe rest

/-- The `matches!(args.max_pixels, Some(m) if m < width * height)` gate
condition (`main.rs` line 164). -/
def checkMaxPixels (maxPixels : Option Nat) (area : Nat) : Bool :=
  match maxPixels with
  | some m => decide (m < area)
  | none => false

/-- Seeding `max_colors` from the global palette (`main.rs` lines
168-170): a plain assignment, not a `max`. -/
def seedGlobalPalette (probe : GifProbe) : Option (List Nat) → Except ProbeError GifProbe
  | none => .ok probe
  | some p =>
    match paletteColors p with
    | some c => .ok { probe with max_colors := c }
    | none => .error .paletteOverflow

/-- `probe` initialisation (`main.rs` lines 155-162). -/
def initProbe (g : GifStream) : GifProbe :=
  { alpha := false, max_colors := 0, duration := 0, frames := 0
    width := g.width, height := g.height }

/-- `args.max_duration.unwrap_or(u64::MAX)` (`main.rs` line 183). -/
def maxDurationOf (args : Arguments) : Nat :=
  args.max_duration.getD (U64_MOD - 1)

/-- The whole probe run of `main` after a successful `read_info`, from the
pixel-area gate to the end of the scan loop, also reporting the frames the
scan never visited. -/
def probeScan (args : Arguments) (g : GifStream) : Except ProbeError (GifProbe × List Frame) :=
  let probe := initProbe g
  if checkMaxPixels args.max_pixels (g.width * g.height) then .error .imageTooLarge
  else
    match seedGlobalPalette probe g.global_palette with
    | .error e => .error e
    | .ok probe =>
      match g.frames with
      | [] => scanLoop (maxDurationOf args) probe []
      | f :: rest =>
        match stepFrame rule_a probe f with
        | .error e => .error e
        | .ok probe => scanLoop (maxDurationOf args) probe rest

/-- The observable result of `main`: the final accumulator serialised at
`main.rs` lines 200-203 (or the fatal error). -/
def probeRun (args : Arguments) (g : GifStream) : Except ProbeError GifProbe :=
  match probeScan args g with
  | .error e => .error e
  | .ok (probe, _) => .ok probe

/-- Number of frames the header-scan loop visits, starting from
accumulated duration `dur`: it consumes frames until the accumulated
duration reaches `maxD` (checked after each frame) or the list ends. -/
def scanVisits (maxD : Nat) (dur : Nat) : List Frame → Nat
  | [] => 0
  | f :: rest =>
    let dur := (dur + f.delay) % U64_MOD
    if maxD ≤ dur then 1 else 1 + scanVisits maxD dur rest

/-- The frames a probe run actually visits: the first frame (fully
decoded) followed by the prefix of the remaining frames consumed by the
header-scan loop. -/
def visitedFrames (args : Arguments) (g : GifStream) : List Frame :=
  match g.frames with
  | [] => []
  | f :: rest =>
    f :: rest.take (scanVisits (maxDurationOf args) ((0 + f.delay) % U64_MOD) rest)

/-- Sum of the delay fields of a list of frames. -/
def sumDelays (fs : List Frame) : Nat :=
  fs.foldr (fun f acc => f.delay + acc) 0

/-- Number of palette entries of an optional palette, `0` when absent. -/
def paletteEntries : Option (List Nat) → Nat
  | none => 0
  | some p => p.length / 3

/-- Maximum local-palette entry count over a list of frames. -/
def palMax (fs : List Frame) : Nat :=
  fs.foldr (fun f acc => Nat.max (paletteEntries f.palette) acc) 0

/-- Whether some frame of the list satisfies Rule B. -/
def anyRuleB (fs : List Frame) : Bool :=
  fs.any rule_b

/-- Number of frames the header-scan loop visits, packaged with the loop's
starting duration `(0 + f.delay) % 2^64` left by the first-frame block. -/
def tailVisits (args : Arguments) (f : Frame) (rest : List Frame) : Nat :=
  scanVisits (maxDurationOf args) ((0 + f.delay) % U64_MOD) rest

/-- Two frames that agree on every field the header-scan loop reads:
everything except the transparent-color index. -/
def HeaderEq (a b : Frame) : Prop :=
  a.delay = b.delay ∧ a.dispose = b.dispose ∧ a.width = b.width ∧
    a.height = b.height ∧ a.palette = b.palette ∧ a.buffer = b.buffer

/-! ### Basic lemmas -/

theorem U64_MOD_pos : 0 < U64_MOD := by
  unfold U64_MOD
  positivity

@[simp] theorem sumDelays_nil : sumDelays [] = 0 := rfl

@[simp] theorem sumDelays_cons (f : Frame) (fs : List Frame) :
    sumDelays (f :: fs) = f.delay + sumDelays fs := rfl

@[simp] theorem palMax_nil : palMax [] = 0 := rfl

@[simp] theorem palMax_cons (f : Frame) (fs : List Frame) :
    palMax (f :: fs) = Nat.max (paletteEntries f.palette) (palMax fs) := rfl

@[simp] theorem anyRuleB_nil : anyRuleB [] = false := rfl

@[simp] theorem anyRuleB_cons (f : Frame) (fs : List Frame) :
    anyRuleB (f :: fs) = (rule_b f || anyRuleB fs) := rfl

theorem paletteColors_some {p : List Nat} {c : Nat} (h : paletteColors p = some c) :
    c = p.length / 3 := by
  unfold paletteColors at h
  split at h
  · exact (Option.some_inj.mp h).symm
  · exact absurd h (by simp)

theorem rule_a_iff (f : Frame) :
    rule_a f = true ↔ ∃ tr, f.transparent = some tr ∧ tr ∈ f.buffer := by
  unfold rule_a
  cases f.transparent <;> simp

theorem checkMaxPixels_iff (mp : Option Nat) (area : Nat) :
    checkMaxPixels mp area = true ↔ ∃ m, mp = some m ∧ m < area := by
  cases mp <;> simp [checkMaxPixels]

/-! ### Characterisation of a single bookkeeping step -/

theorem updatePalette_ok {p : GifProbe} {pal : Option (List Nat)} {q : GifProbe}
    (h : updatePalette p pal = .ok q) :
    q = { p with max_colors := Nat.max p.max_colors (paletteEntries pal) } := by
  cases pal with
  | none =>
    simp only [updatePalette] at h
    cases h
    simp [paletteEntries]
  | some l =>
    simp only [updatePalette] at h
    cases hc : paletteColors l with
    | none => rw [hc] at h; exact absurd h (by simp)
    | some c =>
      rw [hc] at h
      cases h
      rw [paletteColors_some hc]
      rfl

theorem updatePalette_err {p : GifProbe} {pal : Option (List Nat)} {e : ProbeError}
    (h : updatePalette p pal = .error e) : e = .paletteOverflow := by
  cases pal with
  | none => simp only [updatePalette] at h; exact absurd h (by simp)
  | some l =>
    simp only [updatePalette] at h
    cases hc : paletteColors l with
    | none => rw [hc] at h; cases h; rfl
    | some c => rw [hc] at h; exact absurd h (by simp)

theorem stepFrame_ok {rule : Frame → Bool} {p : GifProbe} {f : Frame} {q : GifProbe}
    (h : stepFrame rule p f = .ok q) :
    q.alpha = (p.alpha || rule f) ∧
      q.frames = (p.frames + 1) % U64_MOD ∧
      q.duration = (p.duration + f.delay) % U64_MOD ∧
      q.max_colors = Nat.max p.max_colors (paletteEntries f.palette) ∧
      q.width = p.width ∧ q.height = p.height := by
  unfold stepFrame at h
  rw [updatePalette_ok h]
  simp

theorem stepFrame_err {rule : Frame → Bool} {p : GifProbe} {f : Frame} {e : ProbeError}
    (h : stepFrame rule p f = .error e) : e = .paletteOverflow := by
  unfold stepFrame at h
  exact updatePalette_err h

theorem seedGlobalPalette_ok_zero {p : GifProbe} {gp : Option (List Nat)} {q : GifProbe}
    (h : seedGlobalPalette p gp = .ok q) (hz : p.max_colors = 0) :
    q = { p with max_colors := paletteEntries gp } := by
  cases gp with
  | none =>
    simp only [seedGlobalPalette] at h
    cases h
    cases p
    simp_all [paletteEntries]
  | some l =>
    simp only [seedGlobalPalette] at h
    cases hc : paletteColors l with
    | none => rw [hc] at h; exact absurd h (by simp)
    | some c =>
      rw [hc] at h
      cases h
      rw [paletteColors_some hc]
      rfl

theorem seedGlobalPalette_err {p : GifProbe} {gp : Option (List Nat)} {e : ProbeError}
    (h : seedGlobalPalette p gp = .error e) : e = .paletteOverflow := by
  cases gp with
  | none => simp only [seedGlobalPalette] at h; exact absurd h (by simp)
  | some l =>
    simp only [seedGlobalPalette] at h
    cases hc : paletteColors l with
    | none => rw [hc] at h; cases h; rfl
    | some c => rw [hc] at h; exact absurd h (by simp)

/-! ### Characterisation of the header-scan loop -/

theorem scanLoop_err {maxD : Nat} {p : GifProbe} {fs : List Frame} {e : ProbeError}
    (h : scanLoop maxD p fs = .error e) : e = .paletteOverflow := by
  induction fs generalizing p with
  | nil => simp only [scanLoop] at h; exact absurd h (by simp)
  | cons f rest ih =>
    simp only [scanLoop] at h
    cases hstep : stepFrame rule_b p f with
    | error e' => simp only [hstep] at h; cases h; exact stepFrame_err hstep
    | ok p' =>
      simp only [hstep] at h
      by_cases hstop : maxD ≤ p'.duration
      · rw [if_pos hstop] at h; exact absurd h (by simp)
      · rw [if_neg hstop] at h; exact ih h

theorem scanVisits_le (maxD d : Nat) (fs : List Frame) :
    scanVisits maxD d fs ≤ fs.length := by
  induction fs generalizing d with
  | nil => simp [scanVisits]
  | cons f rest ih =>
    simp only [scanVisits, List.length_cons]
    split
    · omega
    · have := ih ((d + f.delay) % U64_MOD)
      omega

theorem scanLoop_ok {maxD : Nat} {p : GifProbe} {fs : List Frame} {q : GifProbe}
    {rem : List Frame}
    (hd : p.duration < U64_MOD) (hf : p.frames < U64_MOD)
    (h : scanLoop maxD p fs = .ok (q, rem)) :
    rem = fs.drop (scanVisits maxD p.duration fs) ∧
      q.duration = (p.duration + sumDelays (fs.take (scanVisits maxD p.duration fs))) % U64_MOD ∧
      q.frames = (p.frames + scanVisits maxD p.duration fs) % U64_MOD ∧
      q.alpha = (p.alpha || anyRuleB (fs.take (scanVisits maxD p.duration fs))) ∧
      q.max_colors = Nat.max p.max_colors (palMax (fs.take (scanVisits maxD p.duration fs))) ∧
      q.width = p.width ∧ q.height = p.height := by
  induction fs generalizing p with
  | nil =>
    simp only [scanLoop] at h
    cases h
    simp [scanVisits, Nat.mod_eq_of_lt hd, Nat.mod_eq_of_lt hf]
  | cons f rest ih =>
    simp only [scanLoop] at h
    cases hstep : stepFrame rule_b p f with
    | error e => simp only [hstep] at h; exact absurd h (by simp)
    | ok p' =>
      simp only [hstep] at h
      obtain ⟨ha, hfr, hdur, hmc, hw, hh⟩ := stepFrame_ok hstep
      by_cases hstop : maxD ≤ p'.duration
      · rw [if_pos hstop] at h
        simp only [Except.ok.injEq, Prod.mk.injEq] at h
        obtain ⟨hq, hrem⟩ := h
        subst hq
        subst hrem
        rw [hdur] at hstop
        have hk : scanVisits maxD p.duration (f :: rest) = 1 := by
          simp [scanVisits, hstop]
        rw [hk]
        refine ⟨by simp, ?_, by simpa using hfr, ?_, ?_, hw, hh⟩
        · simpa using hdur
        · simpa using ha
        · simpa using hmc
      · rw [if_neg hstop] at h
        rw [hdur] at hstop
        have hk : scanVisits maxD p.duration (f :: rest) =
            1 + scanVisits maxD ((p.duration + f.delay) % U64_MOD) rest := by
          simp [scanVisits, hstop]
        have hd' : p'.duration < U64_MOD := by
          rw [hdur]; exact Nat.mod_lt _ U64_MOD_pos
        have hf' : p'.frames < U64_MOD := by
          rw [hfr]; exact Nat.mod_lt _ U64_MOD_pos
        obtain ⟨h1, h2, h3, h4, h5, h6, h7⟩ := ih hd' hf' h
        rw [hdur] at h1 h2 h3 h4 h5
        rw [hk]
        have htake : (f :: rest).take
            (1 + scanVisits maxD ((p.duration + f.delay) % U64_MOD) rest) =
            f :: rest.take (scanVisits maxD ((p.duration + f.delay) % U64_MOD) rest) := by
          rw [Nat.add_comm]
          rfl
        have hdrop : (f :: rest).drop
            (1 + scanVisits maxD ((p.duration + f.delay) % U64_MOD) rest) =
            rest.drop (scanVisits maxD ((p.duration + f.delay) % U64_MOD) rest) := by
          rw [Nat.add_comm]
          rfl
        refine ⟨by rw [hdrop]; exact h1, ?_, ?_, ?_, ?_, by rw [h6, hw], by rw [h7, hh]⟩
        · rw [htake, h2, Nat.mod_add_mod, sumDelays_cons, Nat.add_assoc]
        · rw [h3, hfr, Nat.mod_add_mod, Nat.add_assoc]
        · rw [htake, h4, ha, anyRuleB_cons, Bool.or_assoc]
        · rw [htake, h5, hmc, palMax_cons]
          exact Nat.max_assoc _ _ _

/-- The header-scan loop stops at the FIRST frame at which the accumulated
duration reaches the ceiling: strictly before the stopping point the
accumulated duration is below `maxD`, and when the loop stops early (some
frames are left) the accumulated duration at the stopping frame has
reached `maxD`. -/
theorem scanVisits_spec (maxD d : Nat) (fs : List Frame) :
    (∀ j, 0 < j → j < scanVisits maxD d fs →
        (d + sumDelays (fs.take j)) % U64_MOD < maxD) ∧
      (scanVisits maxD d fs < fs.length →
        maxD ≤ (d + sumDelays (fs.take (scanVisits maxD d fs))) % U64_MOD) := by
  induction fs generalizing d with
  | nil =>
    refine ⟨fun j hj hjk => absurd hjk (by simp [scanVisits]), ?_⟩
    simp [scanVisits]
  | cons f rest ih =>
    by_cases hstop : maxD ≤ (d + f.delay) % U64_MOD
    · have hk : scanVisits maxD d (f :: rest) = 1 := by simp [scanVisits, hstop]
      rw [hk]
      refine ⟨fun j hj hjk => by omega, fun _ => ?_⟩
      simpa using hstop
    · have hk : scanVisits maxD d (f :: rest) =
          1 + scanVisits maxD ((d + f.delay) % U64_MOD) rest := by
        simp [scanVisits, hstop]
      obtain ⟨ih1, ih2⟩ := ih ((d + f.delay) % U64_MOD)
      rw [hk]
      constructor
      · intro j hj hjk
        cases j with
        | zero => omega
        | succ j' =>
          rw [List.take_succ_cons, sumDelays_cons, ← Nat.add_assoc]
          cases Nat.eq_zero_or_pos j' with
          | inl hz =>
            subst hz
            simpa using Nat.lt_of_not_le hstop
          | inr hpos =>
            have := ih1 j' hpos (by omega)
            rwa [Nat.mod_add_mod] at this
      · intro hlen
        have hlen' : scanVisits maxD ((d + f.delay) % U64_MOD) rest < rest.length := by
          simp only [List.length_cons] at hlen
          omega
        have := ih2 hlen'
        rw [Nat.add_comm 1, List.take_succ_cons, sumDelays_cons, ← Nat.add_assoc]
        rwa [Nat.mod_add_mod] at this

/-! ### Characterisation of the whole probe run -/

theorem probeScan_ok_nil {args : Arguments} {g : GifStream} {q : GifProbe} {rem : List Frame}
    (hg : g.frames = []) (h : probeScan args g = .ok (q, rem)) :
    q = ⟨false, paletteEntries g.global_palette, 0, 0, g.width, g.height⟩ ∧ rem = [] := by
  unfold probeScan at h
  rw [hg] at h
  by_cases hck : checkMaxPixels args.max_pixels (g.width * g.height) = true
  · rw [if_pos hck] at h
    exact absurd h (by simp)
  · rw [if_neg hck] at h
    cases hseed : seedGlobalPalette (initProbe g) g.global_palette with
    | error e => simp only [hseed] at h; exact absurd h (by simp)
    | ok p0 =>
      simp only [hseed, scanLoop] at h
      have h0 := seedGlobalPalette_ok_zero hseed rfl
      simp only [Except.ok.injEq, Prod.mk.injEq] at h
      obtain ⟨hq, hrem⟩ := h
      subst hq
      subst hrem
      exact ⟨by rw [h0]; rfl, rfl⟩

theorem probeScan_ok_cons {args : Arguments} {g : GifStream} {q : GifProbe} {rem : List Frame}
    {f : Frame} {rest : List Frame}
    (hg : g.frames = f :: rest) (h : probeScan args g = .ok (q, rem)) :
    rem = rest.drop (tailVisits args f rest) ∧
      q.alpha = (rule_a f || anyRuleB (rest.take (tailVisits args f rest))) ∧
      q.duration = (f.delay + sumDelays (rest.take (tailVisits args f rest))) % U64_MOD ∧
      q.frames = (1 + tailVisits args f rest) % U64_MOD ∧
      q.max_colors = Nat.max (paletteEntries g.global_palette)
        (Nat.max (paletteEntries f.palette) (palMax (rest.take (tailVisits args f rest)))) ∧
      q.width = g.width ∧ q.height = g.height := by
  unfold probeScan at h
  rw [hg] at h
  by_cases hck : checkMaxPixels args.max_pixels (g.width * g.height) = true
  · rw [if_pos hck] at h
    exact absurd h (by simp)
  · rw [if_neg hck] at h
    cases hseed : seedGlobalPalette (initProbe g) g.global_palette with
    | error e => simp only [hseed] at h; exact absurd h (by simp)
    | ok p0 =>
      simp only [hseed] at h
      have h0 := seedGlobalPalette_ok_zero hseed rfl
      cases hstep : stepFrame rule_a p0 f with
      | error e => simp only [hstep] at h; exact absurd h (by simp)
      | ok p1 =>
        simp only [hstep] at h
        obtain ⟨ha, hfr, hdur, hmc, hw, hh⟩ := stepFrame_ok hstep
        have hp0 : p0.alpha = false ∧ p0.frames = 0 ∧ p0.duration = 0 ∧
            p0.max_colors = paletteEntries g.global_palette ∧
            p0.width = g.width ∧ p0.height = g.height := by
          rw [h0]; exact ⟨rfl, rfl, rfl, rfl, rfl, rfl⟩
        obtain ⟨e1, e2, e3, e4, e5, e6⟩ := hp0
        rw [e1] at ha
        rw [e2] at hfr
        rw [e3] at hdur
        rw [e4] at hmc
        rw [e5] at hw
        rw [e6] at hh
        have hd1 : p1.duration < U64_MOD := by rw [hdur]; exact Nat.mod_lt _ U64_MOD_pos
        have hf1 : p1.frames < U64_MOD := by rw [hfr]; exact Nat.mod_lt _ U64_MOD_pos
        obtain ⟨h1, h2, h3, h4, h5, h6, h7⟩ := scanLoop_ok hd1 hf1 h
        rw [hdur] at h1 h2 h3 h4 h5
        have hkv : scanVisits (maxDurationOf args) ((0 + f.delay) % U64_MOD) rest =
            tailVisits args f rest := rfl
        rw [hkv] at h1 h2 h3 h4 h5
        refine ⟨h1, ?_, ?_, ?_, ?_, by rw [h6, hw], by rw [h7, hh]⟩
        · rw [h4, ha, Bool.false_or]
        · rw [h2, Nat.mod_add_mod, Nat.zero_add]
        · rw [h3, hfr, Nat.mod_add_mod, Nat.zero_add]
        · rw [h5, hmc]
          exact Nat.max_assoc _ _ _

theorem probeRun_ok {args : Arguments} {g : GifStream} {q : GifProbe}
    (h : probeRun args g = .ok q) : ∃ rem, probeScan args g = .ok (q, rem) := by
  unfold probeRun at h
  cases hs : probeScan args g with
  | error e => rw [hs] at h; exact absurd h (by simp)
  | ok pr =>
    rw [hs] at h
    obtain ⟨p, r⟩ := pr
    simp only [Except.ok.injEq] at h
    subst h
    exact ⟨r, rfl⟩

theorem probeRun_error {args : Arguments} {g : GifStream} {e : ProbeError} :
    probeRun args g = .error e ↔ probeScan args g = .error e := by
  unfold probeRun
  cases hs : probeScan args g with
  | error e' => simp
  | ok pr => obtain ⟨p, r⟩ := pr; simp

theorem probeRun_eq_map (args : Arguments) (g : GifStream) :
    probeRun args g = Except.map Prod.fst (probeScan args g) := by
  unfold probeRun
  cases hs : probeScan args g with
  | error e => rfl
  | ok pr => obtain ⟨p, r⟩ := pr; rfl

/-- The only way a probe run fails with `imageTooLarge` is the pixel gate
itself; every later failure is a palette-size overflow. -/
theorem probeScan_tooLarge_iff {args : Arguments} {g : GifStream} :
    probeScan args g = .error .imageTooLarge ↔
      checkMaxPixels args.max_pixels (g.width * g.height) = true := by
  constructor
  · intro h
    by_contra hck
    unfold probeScan at h
    rw [if_neg hck] at h
    cases hseed : seedGlobalPalette (initProbe g) g.global_palette with
    | error e =>
      simp only [hseed] at h
      have he := seedGlobalPalette_err hseed
      simp only [Except.error.injEq] at h
      rw [h] at he
      exact absurd he (by simp)
    | ok p0 =>
      simp only [hseed] at h
      cases hfs : g.frames with
      | nil =>
        rw [hfs] at h
        simp [scanLoop] at h
      | cons f rest =>
        rw [hfs] at h
        cases hstep : stepFrame rule_a p0 f with
        | error e =>
          simp only [hstep] at h
          have he := stepFrame_err hstep
          simp only [Except.error.injEq] at h
          rw [h] at he
          exact absurd he (by simp)
        | ok p1 =>
          simp only [hstep] at h
          have he := scanLoop_err h
          exact absurd he (by simp)
  · intro hck
    unfold probeScan
    rw [if_pos hck]

/-! ### The header-scan loop never reads the transparent-color index -/

theorem rule_b_headerEq {a b : Frame} (h : HeaderEq a b) : rule_b a = rule_b b := by
  obtain ⟨h1, h2, h3, h4, h5, h6⟩ := h
  unfold rule_b
  rw [h2, h3, h4]

theorem stepFrame_headerEq {p : GifProbe} {a b : Frame} (h : HeaderEq a b) :
    stepFrame rule_b p a = stepFrame rule_b p b := by
  have hb := rule_b_headerEq h
  obtain ⟨h1, h2, h3, h4, h5, h6⟩ := h
  unfold stepFrame
  rw [hb, h1, h5]

theorem scanLoop_headerEq {maxD : Nat} {fs1 fs2 : List Frame}
    (h : List.Forall₂ HeaderEq fs1 fs2) (p : GifProbe) :
    Except.map Prod.fst (scanLoop maxD p fs1) = Except.map Prod.fst (scanLoop maxD p fs2) := by
  induction h generalizing p with
  | nil => rfl
  | @cons a b l1 l2 hab hrest ih =>
    simp only [scanLoop]
    rw [← stepFrame_headerEq hab]
    cases hstep : stepFrame rule_b p a with
    | error e => rfl
    | ok p' =>
      by_cases hstop : maxD ≤ p'.duration
      · simp [hstop, Except.map]
      · simp only [hstop, if_neg, if_false]
        exact ih p'

/-! ### Concrete fixtures for witnesses and counterexamples -/

/-- No limits configured. -/
def argsNone : Arguments := ⟨none, none, none⟩

/-- A duration ceiling of `d` ticks, no other limit. -/
def argsDur (d : Nat) : Arguments := ⟨some d, none, none⟩

/-- First frame declaring transparent index 2, which occurs in its decoded
buffer. -/
def frTransUsed : Frame := ⟨4, .Keep, some 2, none, [1, 2, 1], 2, 2⟩

/-- A plain frame: no transparency declared, `Keep` disposal. -/
def frPlain : Frame := ⟨2, .Keep, none, none, [], 1, 1⟩

/-- A `Background`-disposal frame of nonzero area. -/
def frBg : Frame := ⟨3, .Background, none, none, [], 1, 1⟩

/-- A plain frame with a large delay. -/
def frDelay10 : Frame := ⟨10, .Keep, none, none, [], 1, 1⟩

/-- A frame declaring transparent index 5 (used only on tails). -/
def frT1 : Frame := ⟨2, .Keep, some 5, none, [], 1, 1⟩

/-- Same as `frT1` except for the transparent-color index. -/
def frT2 : Frame := ⟨2, .Keep, some 9, none, [], 1, 1⟩

/-- A tail frame declaring transparent index 7 that occurs in its (never
decoded) pixel buffer. -/
def frTransTail : Frame := ⟨2, .Keep, some 7, none, [7], 1, 1⟩

/-- Three-frame stream whose only Rule-B frame sits at index 2. -/
def gC2 : GifStream := ⟨1, 1, none, [frPlain, frPlain, frBg]⟩

/-- Three-frame stream whose first frame alone crosses a ceiling of 5. -/
def gC3 : GifStream := ⟨1, 1, none, [frDelay10, frPlain, frBg]⟩

/-- A zero-frame stream with a 3-entry (9-byte) global palette. -/
def gC8 : GifStream := ⟨2, 3, some [9, 9, 9, 9, 9, 9, 9, 9, 9], []⟩

/-! ### Claims -/

/-- C1: for every GIF whose first frame is fully decoded, absent any later
rule firing (no header-scanned frame satisfies Rule B), the final
transparency flag is true if and only if the first frame declares a
transparent-color index and that index occurs in its decoded pixel
buffer. -/
theorem C1_first_frame_declared_and_used (args : Arguments) (g : GifStream) (q : GifProbe)
    (f : Frame) (rest : List Frame)
    (hg : g.frames = f :: rest)
    (hrun : probeRun args g = .ok q)
    (hnoB : ∀ fr ∈ rest, rule_b fr = false) :
    q.alpha = true ↔ ∃ tr, f.transparent = some tr ∧ tr ∈ f.buffer := by
  obtain ⟨rem, hscan⟩ := probeRun_ok hrun
  obtain ⟨-, ha, -, -, -, -, -⟩ := probeScan_ok_cons hg hscan
  have hB : anyRuleB (rest.take (tailVisits args f rest)) = false := by
    unfold anyRuleB
    rw [List.any_eq_false]
    intro x hx
    simp [hnoB x (List.take_subset _ _ hx)]
  rw [ha, hB, Bool.or_false]
  exact rule_a_iff f

/-- C1 witness: a single-frame GIF with a declared-and-used transparent
index yields `alpha = true`. -/
theorem C1_witness :
    (⟨true, 0, 4, 1, 2, 2⟩ : GifProbe).alpha = true ↔
      ∃ tr, frTransUsed.transparent = some tr ∧ tr ∈ frTransUsed.buffer :=
  C1_first_frame_declared_and_used argsNone ⟨2, 2, none, [frTransUsed]⟩
    ⟨true, 0, 4, 1, 2, 2⟩ frTransUsed [] rfl rfl (by simp)

/-- C2 counterexample to the claim as frozen: `gC2` is a multi-frame GIF
with a `Background`-disposal frame of nonzero area at index 2, yet with a
duration ceiling of 0 the scan stops after the frame at index 1 and the
probe reports `alpha = false`. -/
theorem C2_counterexample :
    2 ≤ gC2.frames.length ∧
      gC2.frames = [frPlain, frPlain, frBg] ∧
      rule_b frBg = true ∧
      probeRun (argsDur 0) gC2 = .ok ⟨false, 0, 4, 2, 1, 1⟩ :=
  ⟨by decide, rfl, rfl, rfl⟩

/-- C2 (amended): the final transparency flag equals Rule A on the first
frame OR-ed with Rule B firing on some header-scanned frame the scan
actually visits.  In particular a visited background-disposal frame of
nonzero width and height forces `alpha = true` regardless of the first
frame's own transparency, and a background-disposal frame of zero width or
zero height (on which `rule_b` is false) never does. -/
theorem C2_amended_alpha_characterisation (args : Arguments) (g : GifStream)
    (q : GifProbe) (f : Frame) (rest : List Frame)
    (hg : g.frames = f :: rest) (hrun : probeRun args g = .ok q) :
    q.alpha = (rule_a f || anyRuleB (List.tail (visitedFrames args g))) := by
  obtain ⟨rem, hscan⟩ := probeRun_ok hrun
  obtain ⟨-, ha, -, -, -, -, -⟩ := probeScan_ok_cons hg hscan
  rw [ha]
  congr 1
  simp only [visitedFrames, hg, List.tail_cons]
  rfl

/-- C2 witness: a visited background-disposal frame at index 1 makes the
probe report `alpha = true` although the first frame has no
transparency. -/
theorem C2_witness :
    (⟨true, 0, 5, 2, 1, 1⟩ : GifProbe).alpha =
      (rule_a frPlain ||
        anyRuleB (List.tail (visitedFrames argsNone ⟨1, 1, none, [frPlain, frBg]⟩))) :=
  C2_amended_alpha_characterisation argsNone ⟨1, 1, none, [frPlain, frBg]⟩
    ⟨true, 0, 5, 2, 1, 1⟩ frPlain [frBg] rfl rfl

/-- C3 counterexample to the claim as frozen: with a ceiling of 5, the
cumulative duration already crosses the threshold at frame 0 (delay 10),
yet the header-scan loop still visits the frame at index 1 before
stopping: `frames = 2`, not 1, even though the crossing frame is frame
0. -/
theorem C3_counterexample :
    5 ≤ sumDelays [frDelay10] ∧
      gC3.frames = [frDelay10, frPlain, frBg] ∧
      probeRun (argsDur 5) gC3 = .ok ⟨false, 0, 12, 2, 1, 1⟩ :=
  ⟨by decide, rfl, rfl⟩

/-- C3 (amended): the duration ceiling is checked only inside the
header-scan loop, after accumulating each header-scanned frame's delay.
When the loop stops early (some frames are left unvisited), the stopping
frame is the FIRST header-scanned frame at which the accumulated duration
has reached the ceiling `D`; that frame is still counted and its delay
included, the total frame count is strictly below the file's frame count,
and the reported duration has reached `D`. -/
theorem C3_amended_ceiling_truncation (args : Arguments) (g : GifStream) (q : GifProbe)
    (f : Frame) (rest : List Frame) (D : Nat)
    (hg : g.frames = f :: rest)
    (hD : args.max_duration = some D)
    (hrun : probeRun args g = .ok q)
    (hmid : tailVisits args f rest < rest.length)
    (hbound : 1 + tailVisits args f rest < U64_MOD) :
    q.frames = 1 + tailVisits args f rest ∧
      q.frames < g.frames.length ∧
      D ≤ q.duration ∧
      q.duration = (f.delay + sumDelays (rest.take (tailVisits args f rest))) % U64_MOD ∧
      (∀ j, 0 < j → j < tailVisits args f rest →
        (f.delay + sumDelays (rest.take j)) % U64_MOD < D) := by
  obtain ⟨rem, hscan⟩ := probeRun_ok hrun
  obtain ⟨-, -, hdur, hfr, -, -, -⟩ := probeScan_ok_cons hg hscan
  have hmaxD : maxDurationOf args = D := by
    unfold maxDurationOf
    rw [hD]
    rfl
  obtain ⟨hleast, hcross⟩ :=
    scanVisits_spec (maxDurationOf args) ((0 + f.delay) % U64_MOD) rest
  have htv : scanVisits (maxDurationOf args) ((0 + f.delay) % U64_MOD) rest =
      tailVisits args f rest := rfl
  rw [htv] at hleast hcross
  have hcross' := hcross hmid
  rw [hmaxD, Nat.mod_add_mod, Nat.zero_add] at hcross'
  refine ⟨?_, ?_, ?_, hdur, ?_⟩
  · rw [hfr, Nat.mod_eq_of_lt hbound]
  · rw [hfr, Nat.mod_eq_of_lt hbound, hg, List.length_cons]
    have := scanVisits_le (maxDurationOf args) ((0 + f.delay) % U64_MOD) rest
    have hk : tailVisits args f rest ≤ rest.length := this
    omega
  · rw [hdur]
    exact hcross'
  · intro j hj hjk
    have := hleast j hj hjk
    rwa [hmaxD, Nat.mod_add_mod, Nat.zero_add] at this

/-- C3 witness: ceiling 4, first frame delay 2, the loop frame at index 1
(delay 2) crosses the ceiling; the frame at index 2 is never visited. -/
theorem C3_witness :
    (⟨false, 0, 4, 2, 1, 1⟩ : GifProbe).frames =
        1 + tailVisits (argsDur 4) frPlain [frPlain, frBg] ∧
      (⟨false, 0, 4, 2, 1, 1⟩ : GifProbe).frames <
        (⟨1, 1, none, [frPlain, frPlain, frBg]⟩ : GifStream).frames.length ∧
      4 ≤ (⟨false, 0, 4, 2, 1, 1⟩ : GifProbe).duration ∧
      (⟨false, 0, 4, 2, 1, 1⟩ : GifProbe).duration =
        (frPlain.delay +
          sumDelays (List.take (tailVisits (argsDur 4) frPlain [frPlain, frBg])
            [frPlain, frBg])) % U64_MOD ∧
      (∀ j, 0 < j → j < tailVisits (argsDur 4) frPlain [frPlain, frBg] →
        (frPlain.delay + sumDelays (List.take j [frPlain, frBg])) % U64_MOD < 4) :=
  C3_amended_ceiling_truncation (argsDur 4) ⟨1, 1, none, [frPlain, frPlain, frBg]⟩
    ⟨false, 0, 4, 2, 1, 1⟩ frPlain [frPlain, frBg] 4 rfl rfl rfl (by decide) (by decide)

/-- C4: the probe fails with the "image too large" condition exactly when a
pixel cap is configured and the canvas area strictly exceeds it — and this
is decided by the canvas header alone, for every frame list and global
palette alike, before any frame is inspected. -/
theorem C4_pixel_area_gate (args : Arguments) (w h : Nat) (gp : Option (List Nat))
    (fs : List Frame) :
    probeRun args ⟨w, h, gp, fs⟩ = .error .imageTooLarge ↔
      ∃ m, args.max_pixels = some m ∧ m < w * h := by
  rw [probeRun_error, probeScan_tooLarge_iff]
  exact checkMaxPixels_iff args.max_pixels (w * h)

/-- C5: on a successful probe, the reported duration is the exact sum of
the visited frames' delays and the reported frame count the number of
visited frames (stated under the no-`u64`-overflow side conditions that
the Rust additions assume). -/
theorem C5_duration_and_frame_count (args : Arguments) (g : GifStream) (q : GifProbe)
    (hrun : probeRun args g = .ok q)
    (hdur : sumDelays (visitedFrames args g) < U64_MOD)
    (hcnt : (visitedFrames args g).length < U64_MOD) :
    q.duration = sumDelays (visitedFrames args g) ∧
      q.frames = (visitedFrames args g).length := by
  obtain ⟨rem, hscan⟩ := probeRun_ok hrun
  cases hg : g.frames with
  | nil =>
    obtain ⟨hq, -⟩ := probeScan_ok_nil hg hscan
    simp only [visitedFrames, hg]
    rw [hq]
    exact ⟨rfl, rfl⟩
  | cons f rest =>
    obtain ⟨-, -, hdur', hfr, -, -, -⟩ := probeScan_ok_cons hg hscan
    have hv : visitedFrames args g = f :: rest.take (tailVisits args f rest) := by
      simp only [visitedFrames, hg]
      rfl
    rw [hv] at hdur hcnt ⊢
    have hlen : (rest.take (tailVisits args f rest)).length = tailVisits args f rest := by
      rw [List.length_take]
      exact Nat.min_eq_left (scanVisits_le _ _ _)
    rw [sumDelays_cons] at hdur
    rw [List.length_cons, hlen] at hcnt ⊢
    constructor
    · rw [hdur', sumDelays_cons]
      exact Nat.mod_eq_of_lt hdur
    · rw [hfr]
      rw [Nat.mod_eq_of_lt (by omega)]
      omega

/-- C5 witness: a two-frame GIF truncated by a ceiling of 1 visits both the
first frame and one header frame; duration 4 and frame count 2 match the
visited frames exactly. -/
theorem C5_witness :
    sumDelays (visitedFrames (argsDur 1) ⟨1, 1, none, [frPlain, frPlain, frBg]⟩) < U64_MOD ∧
      (⟨false, 0, 4, 2, 1, 1⟩ : GifProbe).duration =
        sumDelays (visitedFrames (argsDur 1) ⟨1, 1, none, [frPlain, frPlain, frBg]⟩) ∧
      (⟨false, 0, 4, 2, 1, 1⟩ : GifProbe).frames =
        (visitedFrames (argsDur 1) ⟨1, 1, none, [frPlain, frPlain, frBg]⟩).length :=
  ⟨by decide,
    C5_duration_and_frame_count (argsDur 1) ⟨1, 1, none, [frPlain, frPlain, frBg]⟩
      ⟨false, 0, 4, 2, 1, 1⟩ rfl (by decide) (by decide)⟩

/-- C6: on a successful probe, the reported maximum palette size is the
maximum, over the global palette (0 when absent) and every visited frame's
local palette (0 when absent), of the palette's byte length divided by 3;
in particular it is 0 when neither exists. -/
theorem C6_max_palette_size (args : Arguments) (g : GifStream) (q : GifProbe)
    (hrun : probeRun args g = .ok q) :
    q.max_colors =
      Nat.max (paletteEntries g.global_palette) (palMax (visitedFrames args g)) := by
  obtain ⟨rem, hscan⟩ := probeRun_ok hrun
  cases hg : g.frames with
  | nil =>
    obtain ⟨hq, -⟩ := probeScan_ok_nil hg hscan
    simp only [visitedFrames, hg, palMax_nil]
    rw [hq]
    exact (Nat.max_zero _).symm
  | cons f rest =>
    obtain ⟨-, -, -, -, hmc, -, -⟩ := probeScan_ok_cons hg hscan
    have hv : visitedFrames args g = f :: rest.take (tailVisits args f rest) := by
      simp only [visitedFrames, hg]
      rfl
    rw [hv, palMax_cons, hmc]

/-- C6 witness: a 2-entry global palette and a 4-entry local palette on the
first frame give `max_colors = 4`. -/
theorem C6_witness :
    (⟨false, 4, 2, 1, 1, 1⟩ : GifProbe).max_colors =
      Nat.max
        (paletteEntries (⟨1, 1, some [0, 0, 0, 0, 0, 0],
            [⟨2, .Keep, none, some [1, 1, 1, 1, 1, 1, 1, 1, 1, 1, 1, 1], [], 1, 1⟩]⟩ :
          GifStream).global_palette)
        (palMax (visitedFrames argsNone
          ⟨1, 1, some [0, 0, 0, 0, 0, 0],
            [⟨2, .Keep, none, some [1, 1, 1, 1, 1, 1, 1, 1, 1, 1, 1, 1], [], 1, 1⟩]⟩)) :=
  C6_max_palette_size argsNone
    ⟨1, 1, some [0, 0, 0, 0, 0, 0],
      [⟨2, .Keep, none, some [1, 1, 1, 1, 1, 1, 1, 1, 1, 1, 1, 1], [], 1, 1⟩]⟩
    ⟨false, 4, 2, 1, 1, 1⟩ rfl

/-- C7: the transparency flag is OR-accumulated and set-once: a single
bookkeeping step never lowers it, and no run of the header-scan loop,
however long, resets an already-true flag. -/
theorem C7_alpha_monotone :
    (∀ (rule : Frame → Bool) (p : GifProbe) (f : Frame) (q : GifProbe),
        stepFrame rule p f = .ok q → p.alpha = true → q.alpha = true) ∧
      (∀ (maxD : Nat) (p : GifProbe) (fs : List Frame) (q : GifProbe) (rem : List Frame),
        scanLoop maxD p fs = .ok (q, rem) → p.alpha = true → q.alpha = true) := by
  constructor
  · intro rule p f q hstep hp
    obtain ⟨ha, -, -, -, -, -⟩ := stepFrame_ok hstep
    rw [ha, hp, Bool.true_or]
  · intro maxD p fs q rem hloop hp
    induction fs generalizing p with
    | nil =>
      simp only [scanLoop, Except.ok.injEq, Prod.mk.injEq] at hloop
      obtain ⟨hq, -⟩ := hloop
      rw [← hq]
      exact hp
    | cons f rest ih =>
      simp only [scanLoop] at hloop
      cases hstep : stepFrame rule_b p f with
      | error e => simp only [hstep] at hloop; exact absurd hloop (by simp)
      | ok p' =>
        simp only [hstep] at hloop
        have hp' : p'.alpha = true := by
          obtain ⟨ha, -, -, -, -, -⟩ := stepFrame_ok hstep
          rw [ha, hp, Bool.true_or]
        by_cases hstop : maxD ≤ p'.duration
        · rw [if_pos hstop] at hloop
          simp only [Except.ok.injEq, Prod.mk.injEq] at hloop
          obtain ⟨hq, -⟩ := hloop
          rw [← hq]
          exact hp'
        · rw [if_neg hstop] at hloop
          exact ih p' hloop hp'

/-- C7 witness: a loop run started with the flag already true (and a frame
that does not fire Rule B) still ends with the flag true. -/
theorem C7_witness :
    scanLoop (U64_MOD - 1) ⟨true, 0, 0, 0, 1, 1⟩ [frPlain] =
        .ok (⟨true, 0, 2, 1, 1, 1⟩, []) ∧
      (⟨true, 0, 2, 1, 1, 1⟩ : GifProbe).alpha = true :=
  ⟨rfl,
    C7_alpha_monotone.2 (U64_MOD - 1) ⟨true, 0, 0, 0, 1, 1⟩ [frPlain]
      ⟨true, 0, 2, 1, 1, 1⟩ [] rfl rfl⟩

/-- C8 counterexample to the claim as frozen: a zero-frame stream with a
9-byte global palette terminates normally but reports
`max_colors = 3`, not the claimed default 0. -/
theorem C8_counterexample :
    gC8.frames = [] ∧ probeRun argsNone gC8 = .ok ⟨false, 3, 0, 0, 2, 3⟩ :=
  ⟨rfl, rfl⟩

/-- C8 (amended): a stream that opens successfully with zero frames
terminates normally with `alpha = false`, duration 0, frame count 0 and
the canvas dimensions fixed at open — but `max_colors` is seeded from the
global palette (its byte length divided by 3), and is 0 only when no
global palette exists. -/
theorem C8_amended_zero_frames (args : Arguments) (g : GifStream) (q : GifProbe)
    (hg : g.frames = []) (hrun : probeRun args g = .ok q) :
    q = ⟨false, paletteEntries g.global_palette, 0, 0, g.width, g.height⟩ := by
  obtain ⟨rem, hscan⟩ := probeRun_ok hrun
  exact (probeScan_ok_nil hg hscan).1

/-- C8 witness: a zero-frame stream without a global palette yields the
all-default record. -/
theorem C8_witness :
    (⟨false, 0, 0, 0, 5, 7⟩ : GifProbe) =
      ⟨false, paletteEntries (⟨5, 7, none, []⟩ : GifStream).global_palette, 0, 0,
        (⟨5, 7, none, []⟩ : GifStream).width, (⟨5, 7, none, []⟩ : GifStream).height⟩ :=
  C8_amended_zero_frames argsNone ⟨5, 7, none, []⟩ ⟨false, 0, 0, 0, 5, 7⟩ rfl rfl

/-- C9: the transparent-color index of frames at index ≥ 1 never influences
the result: two streams that agree everywhere except on the tail frames'
transparent-color indices produce identical outputs; and a stream whose
only transparency is a declared-and-used transparent index on a tail
frame, with no Rule-B frame, reports `alpha = false`. -/
theorem C9_tail_transparency_ignored :
    (∀ (args : Arguments) (w h : Nat) (gp : Option (List Nat)) (f : Frame)
        (r1 r2 : List Frame), List.Forall₂ HeaderEq r1 r2 →
        probeRun args ⟨w, h, gp, f :: r1⟩ = probeRun args ⟨w, h, gp, f :: r2⟩) ∧
      (∀ (args : Arguments) (g : GifStream) (q : GifProbe) (f : Frame) (rest : List Frame),
        probeRun args g = .ok q → g.frames = f :: rest → rule_a f = false →
        (∀ fr ∈ rest, rule_b fr = false) → q.alpha = false) := by
  constructor
  · intro args w h gp f r1 r2 hr
    rw [probeRun_eq_map, probeRun_eq_map]
    unfold probeScan
    dsimp only [initProbe]
    by_cases hck : checkMaxPixels args.max_pixels (w * h) = true
    · rw [if_pos hck, if_pos hck]
    · rw [if_neg hck, if_neg hck]
      cases hseed : seedGlobalPalette ⟨false, 0, 0, 0, w, h⟩ gp with
      | error e => simp only [hseed]
      | ok p0 =>
        simp only [hseed]
        cases hstep : stepFrame rule_a p0 f with
        | error e => simp only [hstep]
        | ok p1 =>
          simp only [hstep]
          exact scanLoop_headerEq hr p1
  · intro args g q f rest hrun hg hA hB
    obtain ⟨rem, hscan⟩ := probeRun_ok hrun
    obtain ⟨-, ha, -, -, -, -, -⟩ := probeScan_ok_cons hg hscan
    rw [ha, hA, Bool.false_or]
    unfold anyRuleB
    rw [List.any_eq_false]
    intro x hx
    simp [hB x (List.take_subset _ _ hx)]

/-- C9 witness: changing only a tail frame's transparent index leaves the
output unchanged, and a declared-and-used transparent index on a tail
frame alone yields `alpha = false`. -/
theorem C9_witness :
    probeRun argsNone ⟨1, 1, none, [frPlain, frT1]⟩ =
        probeRun argsNone ⟨1, 1, none, [frPlain, frT2]⟩ ∧
      (⟨false, 0, 4, 2, 1, 1⟩ : GifProbe).alpha = false :=
  ⟨C9_tail_transparency_ignored.1 argsNone 1 1 none frPlain [frT1] [frT2]
      (List.Forall₂.cons ⟨rfl, rfl, rfl, rfl, rfl, rfl⟩ List.Forall₂.nil),
    C9_tail_transparency_ignored.2 argsNone ⟨1, 1, none, [frPlain, frTransTail]⟩
      ⟨false, 0, 4, 2, 1, 1⟩ frPlain [frTransTail] rfl rfl rfl (by decide)⟩

/-- C10: for a non-empty stream the first frame is always processed —
counted and its delay accumulated — whatever duration ceiling is
configured (the ceiling is checked only in the header-scan loop), so the
frame count of a successful probe on a non-empty stream is never zero. -/
theorem C10_first_frame_always_counted (args : Arguments) (g : GifStream) (q : GifProbe)
    (f : Frame) (rest : List Frame)
    (hg : g.frames = f :: rest)
    (hrun : probeRun args g = .ok q)
    (hbound : 1 + tailVisits args f rest < U64_MOD) :
    1 ≤ q.frames ∧
      q.duration = (f.delay + sumDelays (rest.take (tailVisits args f rest))) % U64_MOD := by
  obtain ⟨rem, hscan⟩ := probeRun_ok hrun
  obtain ⟨-, -, hdur, hfr, -, -, -⟩ := probeScan_ok_cons hg hscan
  refine ⟨?_, hdur⟩
  rw [hfr, Nat.mod_eq_of_lt hbound]
  omega

/-- C10 witness: with a duration ceiling of 0, a one-frame stream still has
its first frame fully processed: frame count 1, duration 4. -/
theorem C10_witness :
    1 ≤ (⟨true, 0, 4, 1, 2, 2⟩ : GifProbe).frames ∧
      (⟨true, 0, 4, 1, 2, 2⟩ : GifProbe).duration =
        (frTransUsed.delay +
          sumDelays (List.take (tailVisits (argsDur 0) frTransUsed []) [])) % U64_MOD :=
  C10_first_frame_always_counted (argsDur 0) ⟨2, 2, none, [frTransUsed]⟩
    ⟨true, 0, 4, 1, 2, 2⟩ frTransUsed [] rfl rfl (by decide)

end GifProbeModel
